import Mathlib

/-!
Shallow embedding of the HSA kernel launch pipeline from
`numba/hsa/compiler.py`: the launch-geometry resolver
(`_ensure_list`, `_ensure_size_or_append`, `HSAKernelBase.configure`,
`HSAKernelBase.__getitem__`), the argument marshaler (`_unbox`,
`_prepare_arguments`, `make_complex_ctypes`) and the binder/dispatcher
(`HSAKernel.bind` / `HSAKernel.__call__`), together with theorems that
settle the specification claims about them.

Python integers are embedded as `Int`; size specifications that may be a
bare scalar or a sequence are embedded as the sum type `SizeSpec`;
ctypes buffers are lists of optional cells (`none` = not yet written);
exceptions are `Except` values; the device region is an explicit counter
state so that allocate/free pairing is a provable statement.
-/

namespace NumbaHSA

/-- A `global_size` / `local_size` / `griddim` / `blockdim` specification as
the Python accepts it: either a bare scalar or a sequence of integers. -/
inductive SizeSpec where
  | scalar (v : Int)
  | seq (l : List Int)
  deriving Repr, DecidableEq

/-- `_ensure_list(val)`: a bare scalar becomes a one-element list, a
tuple/list is copied as a list. -/
def _ensure_list : SizeSpec → List Int
  | .scalar v => [v]
  | .seq l => l

/-- `_ensure_size_or_append(val, size)`: `for _ in range(len(val), size):
val.append(1)` — appends `1`s on the right until the length is at least
`size`; never removes or changes an element.  The Python mutates `val` in
place; the embedding returns the resulting list. -/
def _ensure_size_or_append (val : List Int) (size : Nat) : List Int :=
  val ++ List.replicate (size - val.length) 1

/-- The configurable-kernel state: `global_size`, `local_size`, `stream`,
as set by `HSAKernelBase.__init__` and rewritten on clones by
`configure`.  Streams are embedded as opaque integer identities. -/
structure HSAKernelBase where
  global_size : List Int
  local_size : Option (List Int)
  stream : Option Int
  deriving Repr, DecidableEq

/-- `HSAKernelBase.__init__`: `global_size = (1,)`, `local_size = None`,
`stream = None`. -/
def HSAKernelBase.init : HSAKernelBase :=
  { global_size := [1], local_size := none, stream := none }

/-- `HSAKernelBase.configure(global_size, local_size=None, stream=None)`:
coerce the specifications to lists, pad both to the max length when
`local_size` is given, and return a clone carrying the new fields.
The source contains no validation and no raise statement: the embedding
is a total function.  `clone.local_size = tuple(local_size) if local_size
else None` makes an empty list collapse to `None` (Python truthiness). -/
def HSAKernelBase.configure (self : HSAKernelBase) (global_size : SizeSpec)
    (local_size : Option SizeSpec) (stream : Option Int) : HSAKernelBase :=
  let g := _ensure_list global_size
  match local_size with
  | none =>
      { self with global_size := g, local_size := none, stream := stream }
  | some lspec =>
      let l := _ensure_list lspec
      let size := max g.length l.length
      let g := _ensure_size_or_append g size
      let l := _ensure_size_or_append l size
      { self with
          global_size := g
          local_size := if l.isEmpty then none else some l
          stream := stream }

/-- State-passing rendering of `configure` for the frame claim: the
receiver is threaded through and returned next to the clone.  Mirroring
the source statement by statement: every attribute assignment targets
`clone = copy.copy(self)`, never `self`, so the first component is the
receiver as the method leaves it. -/
def HSAKernelBase.configureRcv (self : HSAKernelBase) (global_size : SizeSpec)
    (local_size : Option SizeSpec) (stream : Option Int) :
    HSAKernelBase × HSAKernelBase :=
  (self, self.configure global_size local_size stream)

/-- `HSAKernelBase.__getitem__((griddim, blockdim, stream?))`: pad
`griddim` and `blockdim` to the max of their lengths, multiply
element-wise to get the global size, and delegate to `configure` with the
padded `blockdim` as `local_size` and the trailing value as `stream`. -/
def HSAKernelBase.getitem (self : HSAKernelBase) (griddim blockdim : SizeSpec)
    (stream : Option Int) : HSAKernelBase :=
  let g := _ensure_list griddim
  let b := _ensure_list blockdim
  let size := max g.length b.length
  let g := _ensure_size_or_append g size
  let b := _ensure_size_or_append b size
  let gs := List.zipWith (fun x y => x * y) g b
  self.configure (.seq gs) (some (.seq b)) stream

/-! ## Argument marshaler -/

/-- A host numpy array value as `_unbox` reads it: `val.ndim`,
`val.ctypes.data`, `val.ctypes.shape`, `val.ctypes.strides`. -/
structure ArrayValue where
  ndim : Nat
  data : Int
  shape : List Int
  strides : List Int
  deriving Repr, DecidableEq

/-- A Python-level argument value handed to `__call__`. -/
inductive ArgValue where
  | array (a : ArrayValue)
  | scalar (v : Int)
  deriving Repr, DecidableEq

/-- A declared formal-argument type tag.  The source dispatches on
`isinstance(ty, types.Array)`; every non-array branch of `_unbox` is
commented out, so all other type tags share one `other` constructor. -/
inductive ArgType where
  | array (ndim : Nat)
  | other
  deriving Repr, DecidableEq

/-- Modelled from the spec: `make_array_ctype(ndim)` lives in
`numba.targets.arrayobj`, outside the given source tree.  Per the spec it
builds an array-descriptor structure holding a null parent reference, the
raw data base address, and copies of the shape and stride vectors, with
the rank it was given. -/
structure ArrayDescriptor where
  rank : Nat
  parent : Option Int
  data : Int
  shape : List Int
  strides : List Int
  deriving Repr, DecidableEq

/-- Constructing an instance of `make_array_ctype(ndim)` with
`parent=None, data=…, shape=…, strides=…`. -/
def make_array_ctype (ndim : Nat) (data : Int) (shape strides : List Int) :
    ArrayDescriptor :=
  { rank := ndim, parent := none, data := data, shape := shape,
    strides := strides }

/-- The exceptions the launch path can raise. -/
inductive PyError where
  /-- `raise NotImplementedError(ty)` at the end of `_unbox`. -/
  | notImplemented
  /-- `val.ndim` on a value with no such attribute. -/
  | attributeError
  /-- a failure raised by `queue.dispatch` (external driver). -/
  | dispatchFail
  deriving Repr, DecidableEq

/-- The content of one `ctypes.c_void_p` cell of the kernarg buffer:
either the address of a keep-alive array descriptor or a plain word. -/
inductive CellVal where
  | addr (d : ArrayDescriptor)
  | word (v : Int)
  deriving Repr, DecidableEq

/-- `_unbox(val, ty)`: for an array type, build the descriptor from the
VALUE's rank (`ndim=val.ndim`) and return `(ctypes.addressof(cval), cval)`;
the declared type's rank is never consulted.  Every other type falls
through to `raise NotImplementedError(ty)`. -/
def _unbox (val : ArgValue) (ty : ArgType) :
    Except PyError (CellVal × ArrayDescriptor) :=
  match ty with
  | .array _ =>
      match val with
      | .array a =>
          let cval := make_array_ctype a.ndim a.data a.shape a.strides
          .ok (.addr cval, cval)
      | .scalar _ => .error .attributeError
  | .other => .error .notImplemented

/-- `list(_prepare_arguments(args, argtys))`: `zip(args, argtys)` stops at
the shorter of the two lists — there is no arity check; unboxing proceeds
left to right and the first raised exception propagates out of the
`list(...)` call. -/
def _prepare_arguments : List ArgValue → List ArgType →
    Except PyError (List (CellVal × ArrayDescriptor))
  | val :: args, ty :: argtys =>
      match _unbox val ty with
      | .error e => .error e
      | .ok u =>
          match _prepare_arguments args argtys with
          | .error e => .error e
          | .ok rest => .ok (u :: rest)
  | _, _ => .ok []

/-! ## Binder / dispatcher -/

/-- `HSAKernel.INJECTED_NARG`. -/
def INJECTED_NARG : Nat := 6

/-- The state of the instrumented kernarg region: how many buffers were
allocated and how many freed so far. -/
structure RegionState where
  allocCount : Nat
  freeCount : Nat
  deriving Repr, DecidableEq

/-- The kernarg buffer: `INJECTED_NARG + nargs` pointer-sized cells.
`region.allocate` does not initialize them, so a cell is `none` until the
call writes it. -/
abbrev KernargBuffer := List (Option CellVal)

/-- The allocation step at the end of `HSAKernel.bind`:
`kernarg_types = ctypes.c_void_p * (INJECTED_NARG + nargs)` allocated
from the kernarg region.  The earlier bind steps (symbol lookup, device
finalization) touch no buffer and are external driver calls. -/
def bindAlloc (nargs : Nat) (st : RegionState) : KernargBuffer × RegionState :=
  (List.replicate (INJECTED_NARG + nargs) none,
   { st with allocCount := st.allocCount + 1 })

/-- `for i in range(INJECTED_NARG): kernargs[i] = 0`. -/
def zeroInjected (buf : KernargBuffer) : KernargBuffer :=
  (List.range INJECTED_NARG).foldl (fun b i => b.set i (some (.word 0))) buf

/-- `for i, (cval, keepalive) in enumerate(unboxed):
kernargs[INJECTED_NARG + i] = cval`, entered with the running index `i`. -/
def writeArgs (buf : KernargBuffer) (i : Nat) :
    List (CellVal × ArrayDescriptor) → KernargBuffer
  | [] => buf
  | u :: rest => writeArgs (buf.set (INJECTED_NARG + i) (some u.1)) (i + 1) rest

/-- An `HSAKernel`, reduced to the parts the launch path reads: the
configured geometry and the declared formal-argument types. -/
structure HSAKernel where
  base : HSAKernelBase
  argument_types : List ArgType
  deriving Repr, DecidableEq

/-- The outcome of one `__call__`: the filled buffer on the dispatched
path, or the propagated exception. -/
inductive CallResult where
  | ok (buf : KernargBuffer)
  | error (e : PyError)
  deriving Repr, DecidableEq

/-- `true` exactly on the dispatched (no-exception) path. -/
def CallResult.isOk : CallResult → Bool
  | .ok _ => true
  | .error _ => false

/-- `HSAKernel.__call__(*args)` over the instrumented region:
bind (allocates the buffer), unbox all arguments, zero the injected
slots, write each marshaled cell at slot `INJECTED_NARG + i`, dispatch,
then `kernarg_region.free(kernargs)`.  The free is the last statement of
the method with no try/finally around it: an exception raised by
unboxing or by dispatch propagates before the free is reached.
`dispatchOk` models whether the external `queue.dispatch` call raises. -/
def HSAKernel.call (k : HSAKernel) (args : List ArgValue) (dispatchOk : Bool)
    (st : RegionState) : CallResult × RegionState :=
  let bound := bindAlloc k.argument_types.length st
  let buf := bound.1
  let st1 := bound.2
  match _prepare_arguments args k.argument_types with
  | .error e => (.error e, st1)
  | .ok unboxed =>
      let buf := zeroInjected buf
      let buf := writeArgs buf 0 unboxed
      if dispatchOk then
        (.ok buf, { st1 with freeCount := st1.freeCount + 1 })
      else
        (.error .dispatchFail, st1)

/-! ## Complex ctypes structures -/

/-- A Python `ctypes.Structure` subclass, reduced to the one class
attribute the source declares: the name it was declared under and the
field list `[(field name, byte width of the element type)]`. -/
structure CtypesStructClass where
  attr_name : String
  field_list : List (String × Nat)
  deriving Repr, DecidableEq

/-- ctypes layout semantics: the C field layout of a Structure subclass
is read from the class attribute named exactly `_fields_`; a field list
declared under any other name contributes nothing to the layout. -/
def CtypesStructClass.cfields (c : CtypesStructClass) : List (String × Nat) :=
  if c.attr_name = "_fields_" then c.field_list else []

/-- `ctypes.sizeof` of the structure class: the sum of its C field
widths (all fields here have the same scalar element type, so no padding
arises). -/
def CtypesStructClass.sizeofStruct (c : CtypesStructClass) : Nat :=
  (c.cfields.map Prod.snd).sum

/-- `make_complex_ctypes(element)` as the source writes it: the class
body assigns the two-field list `[('real', element), ('imag', element)]`
to the attribute spelled `_fields` — without the trailing underscore that
ctypes requires. -/
def make_complex_ctypes (element_width : Nat) : CtypesStructClass :=
  { attr_name := "_fields",
    field_list := [("real", element_width), ("imag", element_width)] }

/-- `Complex = make_complex_ctypes(ctypes.c_float)`. -/
def Complex : CtypesStructClass := make_complex_ctypes 4

/-- `DoubleComplex = make_complex_ctypes(ctypes.c_double)`. -/
def DoubleComplex : CtypesStructClass := make_complex_ctypes 8

/-- The real/imaginary attribute pair written by `BaseComplex.__init__`.
Real values appear here only through assignment, never arithmetic, so
they are embedded as rationals. -/
structure ComplexValue where
  real : ℚ
  imag : ℚ
  deriving Repr, DecidableEq

/-- The first argument of `BaseComplex.__init__`: a bare float or an
object with `real`/`imag` attributes. -/
inductive RealOrCmpl where
  | float (r : ℚ)
  | cmpl (z : ComplexValue)
  deriving Repr, DecidableEq

/-- `BaseComplex.__init__(real_or_cmpl=0, imag=0)`: a bare float sets
`real` from it and `imag` from the second parameter (default `0`); any
other value has its `real`/`imag` attributes copied and the second
parameter is ignored. -/
def complexInit (real_or_cmpl : RealOrCmpl) (imag : ℚ) : ComplexValue :=
  match real_or_cmpl with
  | .float r => { real := r, imag := imag }
  | .cmpl z => { real := z.real, imag := z.imag }

/-! ## Helper lemmas -/

/-- A valid size specification in the sense of the spec: a scalar or a
non-empty sequence, all entries positive. -/
def validSpec (s : SizeSpec) : Prop :=
  _ensure_list s ≠ [] ∧ ∀ x ∈ _ensure_list s, 0 < x

/-- The bracket-launch semantics in the spec's own words: pad `gridDim`
and `blockDim` to equal rank with trailing `1`s, compute `globalSize`
element-wise as `gridDim[i] * blockDim[i]`, and delegate to `configure`
with the padded `blockDim` as `localSize` and the trailing value as the
stream. -/
def bracketSpec (self : HSAKernelBase) (griddim blockdim : List Int)
    (stream : Option Int) : HSAKernelBase :=
  let size := max griddim.length blockdim.length
  let g := griddim ++ List.replicate (size - griddim.length) 1
  let b := blockdim ++ List.replicate (size - blockdim.length) 1
  self.configure (.seq (List.zipWith (fun x y => x * y) g b)) (some (.seq b)) stream

theorem ensure_size_or_append_length (val : List Int) (size : Nat) :
    (_ensure_size_or_append val size).length = max val.length size := by
  simp [_ensure_size_or_append]
  omega

theorem ensure_size_or_append_ne_nil (val : List Int) (size : Nat)
    (h : val ≠ []) : _ensure_size_or_append val size ≠ [] := by
  simp [_ensure_size_or_append, h]

theorem ensure_size_or_append_take (val : List Int) (size : Nat) :
    (_ensure_size_or_append val size).take val.length = val :=
  List.take_left val _

/-- Unfolding `configure` when `local_size` is supplied. -/
theorem HSAKernelBase.configure_some (self : HSAKernelBase) (g l : SizeSpec)
    (s : Option Int) :
    self.configure g (some l) s =
      { self with
          global_size := _ensure_size_or_append (_ensure_list g)
            (max (_ensure_list g).length (_ensure_list l).length)
          local_size :=
            if (_ensure_size_or_append (_ensure_list l)
                  (max (_ensure_list g).length (_ensure_list l).length)).isEmpty
            then none
            else some (_ensure_size_or_append (_ensure_list l)
              (max (_ensure_list g).length (_ensure_list l).length))
          stream := s } := rfl

end NumbaHSA

namespace NumbaHSA

/-! ## Launch-geometry claims -/

/-- C2: for every valid `globalSize`/`localSize` specification pair of
possibly differing rank, the resolved geometry has both sequences of
equal length (the max of the two input ranks); each original element is
preserved in place and the only change is `1`s appended on the right of
the shorter sequence — nothing is dropped or truncated. -/
theorem configure_resolves_geometry_without_loss
    (self : HSAKernelBase) (stream : Option Int) (gspec lspec : SizeSpec)
    (hg : validSpec gspec) (hl : validSpec lspec) :
    (self.configure gspec (some lspec) stream).global_size =
      _ensure_list gspec ++
        List.replicate (max (_ensure_list gspec).length (_ensure_list lspec).length
          - (_ensure_list gspec).length) 1 ∧
    (self.configure gspec (some lspec) stream).local_size =
      some (_ensure_list lspec ++
        List.replicate (max (_ensure_list gspec).length (_ensure_list lspec).length
          - (_ensure_list lspec).length) 1) ∧
    (self.configure gspec (some lspec) stream).global_size.length =
      max (_ensure_list gspec).length (_ensure_list lspec).length ∧
    ((self.configure gspec (some lspec) stream).local_size.getD []).length =
      max (_ensure_list gspec).length (_ensure_list lspec).length := by
  have hne := ensure_size_or_append_ne_nil (_ensure_list lspec)
    (max (_ensure_list gspec).length (_ensure_list lspec).length) hl.1
  rw [HSAKernelBase.configure_some]
  simp only [List.isEmpty_iff, hne, if_false]
  refine ⟨rfl, rfl, ?_, ?_⟩
  · rw [ensure_size_or_append_length]
    omega
  · simp only [Option.getD_some]
    rw [ensure_size_or_append_length]
    omega

/-- Witness for C2, at the spec's own example `configure((4,2), (2,))`:
geometry `globalSize=(4,2), localSize=(2,1)`. -/
theorem configure_resolves_geometry_without_loss_witness :
    validSpec (.seq [4, 2]) ∧ validSpec (.seq [2]) ∧
    ((HSAKernelBase.init.configure (.seq [4, 2]) (some (.seq [2])) none).global_size
        = [4, 2] ∧
      (HSAKernelBase.init.configure (.seq [4, 2]) (some (.seq [2])) none).local_size
        = some [2, 1] ∧
      (HSAKernelBase.init.configure (.seq [4, 2]) (some (.seq [2])) none).global_size.length
        = 2 ∧
      ((HSAKernelBase.init.configure (.seq [4, 2]) (some (.seq [2])) none).local_size.getD
          []).length = 2) := by
  refine ⟨⟨by decide, by decide⟩, ⟨by decide, by decide⟩, ?_⟩
  exact configure_resolves_geometry_without_loss HSAKernelBase.init none
    (.seq [4, 2]) (.seq [2]) ⟨by decide, by decide⟩ ⟨by decide, by decide⟩

/-- C3: for all `gridDim`/`blockDim` of ranks 1–4 with positive entries,
`__getitem__` equals the spec-side padding/multiply/delegate recipe, and
in particular `k[(2,3), (4,5)]` yields `globalSize=(8,15)` and
`localSize=(4,5)`. -/
theorem getitem_matches_bracketSpec (self : HSAKernelBase) (stream : Option Int)
    (g b : List Int)
    (hg1 : 1 ≤ g.length) (hg4 : g.length ≤ 4)
    (hb1 : 1 ≤ b.length) (hb4 : b.length ≤ 4)
    (hgpos : ∀ x ∈ g, 0 < x) (hbpos : ∀ x ∈ b, 0 < x) :
    self.getitem (.seq g) (.seq b) stream = bracketSpec self g b stream ∧
    (HSAKernelBase.init.getitem (.seq [2, 3]) (.seq [4, 5]) none).global_size
      = [8, 15] ∧
    (HSAKernelBase.init.getitem (.seq [2, 3]) (.seq [4, 5]) none).local_size
      = some [4, 5] :=
  ⟨rfl, by decide, by decide⟩

/-- Witness for C3 at `gridDim=(2,3)`, `blockDim=(4,5)`. -/
theorem getitem_matches_bracketSpec_witness :
    1 ≤ ([2, 3] : List Int).length ∧ ([2, 3] : List Int).length ≤ 4 ∧
    1 ≤ ([4, 5] : List Int).length ∧ ([4, 5] : List Int).length ≤ 4 ∧
    (∀ x ∈ ([2, 3] : List Int), 0 < x) ∧ (∀ x ∈ ([4, 5] : List Int), 0 < x) ∧
    (HSAKernelBase.init.getitem (.seq [2, 3]) (.seq [4, 5]) none =
        bracketSpec HSAKernelBase.init [2, 3] [4, 5] none ∧
      (HSAKernelBase.init.getitem (.seq [2, 3]) (.seq [4, 5]) none).global_size
        = [8, 15] ∧
      (HSAKernelBase.init.getitem (.seq [2, 3]) (.seq [4, 5]) none).local_size
        = some [4, 5]) := by
  refine ⟨by decide, by decide, by decide, by decide, by decide, by decide, ?_⟩
  exact getitem_matches_bracketSpec HSAKernelBase.init none [2, 3] [4, 5]
    (by decide) (by decide) (by decide) (by decide) (by decide) (by decide)

/-- C4 counterexample: the source `configure` contains no emptiness check
and no raise at all (the embedding is a total function), so an empty
size sequence does NOT fail with `InvalidGeometry`: an empty `globalSize`
next to `localSize=(2,)` silently resolves to the non-error configuration
`globalSize=(1,), localSize=(2,)`, and two empty sequences resolve to
`globalSize=(), localSize=None`. -/
theorem configure_empty_counterexample :
    HSAKernelBase.init.configure (.seq []) (some (.seq [2])) none =
      { global_size := [1], local_size := some [2], stream := none } ∧
    HSAKernelBase.init.configure (.seq []) (some (.seq [])) none =
      { global_size := [], local_size := none, stream := none } ∧
    HSAKernelBase.init.configure (.seq []) none none =
      { global_size := [], local_size := none, stream := none } := by
  decide

/-- C4 amended: `configure` accepts empty size sequences without error.
An empty `globalSize` beside a `localSize` of length `n` is padded to
`n` ones; an empty `localSize` beside `globalSize` of length `n` is
padded to `n` ones (collapsing to `None` when both are empty, by Python
truthiness of the empty list).  No `InvalidGeometry` error exists in the
code. -/
theorem configure_accepts_empty_spec (self : HSAKernelBase) (stream : Option Int)
    (g l : List Int) :
    self.configure (.seq []) (some (.seq l)) stream =
      { self with
          global_size := List.replicate l.length 1
          local_size := if l.isEmpty then none else some l
          stream := stream } ∧
    self.configure (.seq g) (some (.seq [])) stream =
      { self with
          global_size := g
          local_size := if g.isEmpty then none else some (List.replicate g.length 1)
          stream := stream } := by
  constructor
  · rw [HSAKernelBase.configure_some]
    cases l with
    | nil => simp [_ensure_list, _ensure_size_or_append]
    | cons a as =>
        simp [_ensure_list, _ensure_size_or_append]
  · rw [HSAKernelBase.configure_some]
    cases g with
    | nil => simp [_ensure_list, _ensure_size_or_append]
    | cons a as =>
        simp [_ensure_list, _ensure_size_or_append, List.replicate_succ]

/-- C6: `configure` never mutates its receiver.  In the state-passing
rendering `configureRcv`, the receiver component returned by the method
is the untouched receiver — `global_size`, `local_size` and `stream` are
all unchanged — and only the returned clone carries the new canonical
geometry and stream. -/
theorem configure_does_not_mutate_receiver (self : HSAKernelBase)
    (g : SizeSpec) (l : Option SizeSpec) (s : Option Int) :
    (self.configureRcv g l s).1.global_size = self.global_size ∧
    (self.configureRcv g l s).1.local_size = self.local_size ∧
    (self.configureRcv g l s).1.stream = self.stream ∧
    (self.configureRcv g l s).2 = self.configure g l s :=
  ⟨rfl, rfl, rfl, rfl⟩

/-- C10: the geometry resolver performs no positivity validation.  For
any integer entries — zero or negative included — `configure` succeeds
(it is a total function with no raise in the source) and every supplied
element reappears unchanged at its original position in the returned
tuples. -/
theorem configure_no_positivity_validation (self : HSAKernelBase)
    (stream : Option Int) (g l : List Int) (hl : l ≠ []) :
    ((self.configure (.seq g) (some (.seq l)) stream).global_size).take g.length
      = g ∧
    ∃ lpad, (self.configure (.seq g) (some (.seq l)) stream).local_size
        = some lpad ∧
      lpad.take l.length = l := by
  have hne := ensure_size_or_append_ne_nil l (max g.length l.length) hl
  rw [HSAKernelBase.configure_some]
  simp only [_ensure_list, List.isEmpty_iff, hne, if_false]
  exact ⟨ensure_size_or_append_take g _, _, rfl, ensure_size_or_append_take l _⟩

/-! ## Buffer and marshaling lemmas -/

theorem writeArgs_length (us : List (CellVal × ArrayDescriptor))
    (buf : KernargBuffer) (i : Nat) :
    (writeArgs buf i us).length = buf.length := by
  induction us generalizing buf i with
  | nil => rfl
  | cons u rest ih => simp [writeArgs, ih]

theorem writeArgs_getElem?_below (us : List (CellVal × ArrayDescriptor))
    (buf : KernargBuffer) (i j : Nat) (h : j < INJECTED_NARG + i) :
    (writeArgs buf i us)[j]? = buf[j]? := by
  induction us generalizing buf i with
  | nil => rfl
  | cons u rest ih =>
      rw [writeArgs, ih _ (i + 1) (by omega)]
      rw [List.getElem?_set]
      simp [show ¬(INJECTED_NARG + i = j) by omega]

theorem writeArgs_getElem?_above (us : List (CellVal × ArrayDescriptor))
    (buf : KernargBuffer) (i j : Nat) (h : INJECTED_NARG + i + us.length ≤ j) :
    (writeArgs buf i us)[j]? = buf[j]? := by
  induction us generalizing buf i with
  | nil => rfl
  | cons u rest ih =>
      rw [writeArgs, ih _ (i + 1) (by simp at h; omega)]
      rw [List.getElem?_set]
      simp at h
      simp [show ¬(INJECTED_NARG + i = j) by omega]

theorem writeArgs_getElem?_at (us : List (CellVal × ArrayDescriptor))
    (buf : KernargBuffer) (i t : Nat) (ht : t < us.length)
    (hlen : INJECTED_NARG + i + us.length ≤ buf.length) :
    (writeArgs buf i us)[INJECTED_NARG + i + t]? =
      some (some (us.get ⟨t, ht⟩).1) := by
  induction us generalizing buf i t with
  | nil => exact absurd ht (by simp)
  | cons u rest ih =>
      simp at hlen
      cases t with
      | zero =>
          rw [writeArgs,
            writeArgs_getElem?_below rest _ (i + 1) (INJECTED_NARG + i + 0)
              (by omega)]
          rw [List.getElem?_set]
          simp only [Nat.add_zero]
          simp [show INJECTED_NARG + i < buf.length by omega]
      | succ t' =>
          rw [writeArgs]
          have hidx : INJECTED_NARG + i + (t' + 1) = INJECTED_NARG + (i + 1) + t' := by
            omega
          rw [hidx,
            ih (buf.set (INJECTED_NARG + i) (some u.1)) (i + 1) t'
              (by simpa using ht) (by simp; omega)]
          rfl

theorem zeroInjected_eq (buf : KernargBuffer) :
    zeroInjected buf =
      (((((buf.set 0 (some (.word 0))).set 1 (some (.word 0))).set 2
        (some (.word 0))).set 3 (some (.word 0))).set 4
        (some (.word 0))).set 5 (some (.word 0)) := rfl

theorem zeroInjected_length (buf : KernargBuffer) :
    (zeroInjected buf).length = buf.length := by
  simp [zeroInjected_eq]

theorem zeroInjected_getElem?_below (buf : KernargBuffer) (j : Nat)
    (h1 : j < INJECTED_NARG) (h2 : j < buf.length) :
    (zeroInjected buf)[j]? = some (some (.word 0)) := by
  rw [zeroInjected_eq]
  have h1' : j < 6 := h1
  interval_cases j <;> simp [List.getElem?_set, List.length_set, h2]

theorem zeroInjected_getElem?_above (buf : KernargBuffer) (j : Nat)
    (h : INJECTED_NARG ≤ j) :
    (zeroInjected buf)[j]? = buf[j]? := by
  have h6 : 6 ≤ j := h
  rw [zeroInjected_eq]
  simp [List.getElem?_set, show ¬(5 = j) by omega, show ¬(4 = j) by omega,
    show ¬(3 = j) by omega, show ¬(2 = j) by omega, show ¬(1 = j) by omega,
    show ¬(0 = j) by omega]

theorem prepare_ok_length : ∀ (args : List ArgValue) (argtys : List ArgType)
    (us : List (CellVal × ArrayDescriptor)),
    _prepare_arguments args argtys = .ok us →
    us.length = min args.length argtys.length
  | [], [], us, h => by
      simp [_prepare_arguments] at h
      simp [← h]
  | [], _ :: _, us, h => by
      simp [_prepare_arguments] at h
      simp [← h]
  | _ :: _, [], us, h => by
      simp [_prepare_arguments] at h
      simp [← h]
  | a :: as, t :: ts, us, h => by
      simp only [_prepare_arguments] at h
      cases hu : _unbox a t with
      | error e => simp [hu] at h
      | ok u =>
          rw [hu] at h
          cases hr : _prepare_arguments as ts with
          | error e => simp [hr] at h
          | ok rest =>
              rw [hr] at h
              simp only [Except.ok.injEq] at h
              subst h
              have := prepare_ok_length as ts rest hr
              simp [this]
              omega

theorem prepare_ignores_excess (args : List ArgValue) (argtys : List ArgType) :
    _prepare_arguments args argtys =
      _prepare_arguments (args.take argtys.length) argtys := by
  induction args generalizing argtys with
  | nil => simp
  | cons a as ih =>
      cases argtys with
      | nil => simp [_prepare_arguments]
      | cons t ts =>
          simp only [List.length_cons, List.take_succ_cons]
          simp only [_prepare_arguments]
          rw [← ih ts]

/-- Witness for C10 at the non-positive specification
`globalSize=(0,-3), localSize=(-2,)`: accepted unchanged, resolving to
`globalSize=(0,-3), localSize=(-2,1)`. -/
theorem configure_no_positivity_validation_witness :
    ([-2] : List Int) ≠ [] ∧
    (((HSAKernelBase.init.configure (.seq [0, -3]) (some (.seq [-2])) none).global_size).take 2
        = [0, -3] ∧
      ∃ lpad,
        (HSAKernelBase.init.configure (.seq [0, -3]) (some (.seq [-2])) none).local_size
          = some lpad ∧ lpad.take 1 = [-2]) := by
  refine ⟨by decide, ?_⟩
  exact configure_no_positivity_validation HSAKernelBase.init none [0, -3] [-2]
    (by decide)

/-! ## Binder/dispatcher claims -/

/-- C1 counterexample: `__call__` has no try/finally — the
`kernarg_region.free(kernargs)` statement is only reached on the
successful path.  With a failing dispatch (and no arguments) the buffer
allocated in `bind` is allocated once and freed zero times, not exactly
once; the same leak occurs when marshaling raises (`NotImplementedError`
for a non-array type). -/
theorem call_leaks_buffer_counterexample :
    (HSAKernel.call ⟨HSAKernelBase.init, []⟩ [] false ⟨0, 0⟩).2
      = { allocCount := 1, freeCount := 0 } ∧
    (HSAKernel.call ⟨HSAKernelBase.init, []⟩ [] false ⟨0, 0⟩).1
      = .error .dispatchFail ∧
    (HSAKernel.call ⟨HSAKernelBase.init, [.other]⟩ [.scalar 5] true ⟨0, 0⟩).2
      = { allocCount := 1, freeCount := 0 } ∧
    (HSAKernel.call ⟨HSAKernelBase.init, [.other]⟩ [.scalar 5] true ⟨0, 0⟩).1
      = .error .notImplemented := by
  decide

/-- C1 amended: every call allocates the buffer exactly once, and frees
it exactly once on the successful-dispatch path ONLY; when marshaling or
dispatch raises, the trailing free statement is never reached, so the
buffer is never freed on those paths (a leak — though no path ever frees
it twice). -/
theorem call_frees_buffer_only_on_success (k : HSAKernel)
    (args : List ArgValue) (dispatchOk : Bool) (st : RegionState) :
    (k.call args dispatchOk st).2.allocCount = st.allocCount + 1 ∧
    (k.call args dispatchOk st).2.freeCount =
      st.freeCount + (if (k.call args dispatchOk st).1.isOk then 1 else 0) := by
  simp only [HSAKernel.call, bindAlloc]
  cases h : _prepare_arguments args k.argument_types with
  | error e => simp [CallResult.isOk]
  | ok us => cases dispatchOk <;> simp [CallResult.isOk]

/-- C5 counterexample: marshaling a rank-1 array value against a
declared rank-2 array type succeeds — `_unbox` builds the descriptor
from `val.ndim` and never consults the declared rank; no
`ShapeRankMismatch` error exists in the code. -/
theorem unbox_rank_mismatch_counterexample :
    _unbox (.array ⟨1, 100, [4], [8]⟩) (.array 2) =
      .ok (.addr (make_array_ctype 1 100 [4] [8]),
        make_array_ctype 1 100 [4] [8]) := rfl

/-- C5 amended: `_unbox` takes the rank from the value alone — the
declared array type's rank is ignored entirely, marshaling succeeds for
every rank combination and performs no rank check.  The genuine
marshaling failure path (`NotImplementedError` for a non-array type)
does occur before any buffer write: `__call__` materializes the whole
unboxed list before touching the buffer, so a failing call returns the
exception with nothing written. -/
theorem unbox_ignores_declared_rank (a : ArrayValue) (n m : Nat) :
    (_unbox (.array a) (.array n) = _unbox (.array a) (.array m) ∧
      _unbox (.array a) (.array n) =
        .ok (.addr (make_array_ctype a.ndim a.data a.shape a.strides),
          make_array_ctype a.ndim a.data a.shape a.strides)) ∧
    (∀ (k : HSAKernel) (args : List ArgValue) (st : RegionState) (e : PyError),
      _prepare_arguments args k.argument_types = .error e →
      k.call args true st =
        (.error e, { st with allocCount := st.allocCount + 1 })) := by
  refine ⟨⟨rfl, rfl⟩, fun k args st e h => ?_⟩
  simp only [HSAKernel.call, bindAlloc, h]

/-- Witness for C5's amended theorem: the rank-mismatch input marshals
successfully, and a kernel whose only declared type is non-array fails
before any buffer write. -/
theorem unbox_ignores_declared_rank_witness :
    (_unbox (.array ⟨1, 100, [4], [8]⟩) (.array 2) =
        _unbox (.array ⟨1, 100, [4], [8]⟩) (.array 1) ∧
      _unbox (.array ⟨1, 100, [4], [8]⟩) (.array 2) =
        .ok (.addr (make_array_ctype 1 100 [4] [8]),
          make_array_ctype 1 100 [4] [8])) ∧
    HSAKernel.call ⟨HSAKernelBase.init, [.other]⟩ [.scalar 5] true ⟨0, 0⟩ =
      (.error .notImplemented, { allocCount := 1, freeCount := 0 }) := by
  obtain ⟨h1, h2⟩ := unbox_ignores_declared_rank ⟨1, 100, [4], [8]⟩ 2 1
  exact ⟨h1, h2 ⟨HSAKernelBase.init, [.other]⟩ [.scalar 5] ⟨0, 0⟩
    .notImplemented rfl⟩

/-- C7: the buffer allocated for a launch with `n` declared formal
arguments holds exactly `INJECTED_NARG` (= 6) implicit pointer-sized
slots followed by `n` pointer-sized slots; the injected slots are
zero-filled and the marshaled cell of formal argument `i` lands at slot
`INJECTED_NARG + i`, in declared order. -/
theorem call_buffer_layout (k : HSAKernel) (args : List ArgValue)
    (us : List (CellVal × ArrayDescriptor)) (st : RegionState)
    (hlen : args.length = k.argument_types.length)
    (hok : _prepare_arguments args k.argument_types = .ok us) :
    INJECTED_NARG = 6 ∧
    ∃ buf st2, k.call args true st = (.ok buf, st2) ∧
      buf.length = INJECTED_NARG + k.argument_types.length ∧
      us.length = k.argument_types.length ∧
      (∀ j, j < INJECTED_NARG → buf[j]? = some (some (.word 0))) ∧
      (∀ t (ht : t < us.length),
        buf[INJECTED_NARG + t]? = some (some (us.get ⟨t, ht⟩).1)) := by
  have huslen : us.length = k.argument_types.length := by
    have := prepare_ok_length args k.argument_types us hok
    omega
  have hbuflen :
      (zeroInjected (List.replicate (INJECTED_NARG + k.argument_types.length)
        (none : Option CellVal))).length =
        INJECTED_NARG + k.argument_types.length := by
    rw [zeroInjected_length, List.length_replicate]
  refine ⟨rfl, writeArgs (zeroInjected
      (List.replicate (INJECTED_NARG + k.argument_types.length) none)) 0 us,
    { st with allocCount := st.allocCount + 1, freeCount := st.freeCount + 1 },
    ?_, ?_, huslen, ?_, ?_⟩
  · simp [HSAKernel.call, bindAlloc, hok]
  · rw [writeArgs_length, hbuflen]
  · intro j hj
    rw [writeArgs_getElem?_below us _ 0 j (by omega),
      zeroInjected_getElem?_below _ j hj (by simp; omega)]
  · intro t ht
    have := writeArgs_getElem?_at us (zeroInjected
      (List.replicate (INJECTED_NARG + k.argument_types.length) none)) 0 t ht
      (by rw [hbuflen]; omega)
    simpa using this

/-- Witness for C7: a kernel with one declared rank-1 array argument
called with one rank-1 array value. -/
theorem call_buffer_layout_witness :
    ([ArgValue.array ⟨1, 100, [4], [8]⟩].length =
      ([ArgType.array 1] : List ArgType).length) ∧
    (_prepare_arguments [.array ⟨1, 100, [4], [8]⟩] [.array 1] =
      .ok [(.addr (make_array_ctype 1 100 [4] [8]),
        make_array_ctype 1 100 [4] [8])]) ∧
    (INJECTED_NARG = 6 ∧
    ∃ buf st2,
      HSAKernel.call ⟨HSAKernelBase.init, [.array 1]⟩
          [.array ⟨1, 100, [4], [8]⟩] true ⟨0, 0⟩ = (.ok buf, st2) ∧
        buf.length = INJECTED_NARG + 1 ∧
        ([(.addr (make_array_ctype 1 100 [4] [8]),
            make_array_ctype 1 100 [4] [8])] :
          List (CellVal × ArrayDescriptor)).length = 1 ∧
        (∀ j, j < INJECTED_NARG → buf[j]? = some (some (.word 0))) ∧
        (∀ t (ht : t < ([(.addr (make_array_ctype 1 100 [4] [8]),
            make_array_ctype 1 100 [4] [8])] :
          List (CellVal × ArrayDescriptor)).length),
          buf[INJECTED_NARG + t]? =
            some (some (([(.addr (make_array_ctype 1 100 [4] [8]),
              make_array_ctype 1 100 [4] [8])] :
              List (CellVal × ArrayDescriptor)).get ⟨t, ht⟩).1))) := by
  refine ⟨rfl, rfl, ?_⟩
  exact call_buffer_layout ⟨HSAKernelBase.init, [.array 1]⟩
    [.array ⟨1, 100, [4], [8]⟩]
    [(.addr (make_array_ctype 1 100 [4] [8]), make_array_ctype 1 100 [4] [8])]
    ⟨0, 0⟩ rfl rfl

/-- C9: the launch performs no arity check.  A call is identical to the
call on the argument list truncated to the declared count (excess values
silently ignored, via `zip`), and a call with fewer values than declared
types succeeds, leaving the formal-argument slots past the supplied
values unwritten (`none`, never initialized by `region.allocate`). -/
theorem call_no_arity_check (k : HSAKernel) (args : List ArgValue)
    (dispatchOk : Bool) (st : RegionState) :
    k.call args dispatchOk st =
      k.call (args.take k.argument_types.length) dispatchOk st ∧
    (∀ us, _prepare_arguments args k.argument_types = .ok us →
      args.length ≤ k.argument_types.length →
      ∃ buf st2, k.call args true st = (.ok buf, st2) ∧
        ∀ t, us.length ≤ t → t < k.argument_types.length →
          buf[INJECTED_NARG + t]? = some none) := by
  constructor
  · simp only [HSAKernel.call]
    rw [← prepare_ignores_excess args k.argument_types]
  · intro us hok hle
    have huslen : us.length = args.length := by
      have := prepare_ok_length args k.argument_types us hok
      omega
    refine ⟨writeArgs (zeroInjected
        (List.replicate (INJECTED_NARG + k.argument_types.length) none)) 0 us,
      { st with allocCount := st.allocCount + 1, freeCount := st.freeCount + 1 },
      ?_, ?_⟩
    · simp [HSAKernel.call, bindAlloc, hok]
    · intro t h1 h2
      rw [writeArgs_getElem?_above us _ 0 (INJECTED_NARG + t) (by omega),
        zeroInjected_getElem?_above _ (INJECTED_NARG + t) (by omega)]
      simp [List.getElem?_replicate, h2]

/-- Witness for C9: a kernel with two declared array arguments called
with a single array value: the call succeeds and slot
`INJECTED_NARG + 1` stays unwritten. -/
theorem call_no_arity_check_witness :
    (HSAKernel.call ⟨HSAKernelBase.init, [.array 1, .array 1]⟩
        [.array ⟨1, 100, [4], [8]⟩] true ⟨0, 0⟩ =
      HSAKernel.call ⟨HSAKernelBase.init, [.array 1, .array 1]⟩
        ([ArgValue.array ⟨1, 100, [4], [8]⟩].take 2) true ⟨0, 0⟩) ∧
    (_prepare_arguments [.array ⟨1, 100, [4], [8]⟩] [.array 1, .array 1] =
      .ok [(.addr (make_array_ctype 1 100 [4] [8]),
        make_array_ctype 1 100 [4] [8])]) ∧
    ([ArgValue.array ⟨1, 100, [4], [8]⟩].length ≤ 2) ∧
    (∃ buf st2,
      HSAKernel.call ⟨HSAKernelBase.init, [.array 1, .array 1]⟩
          [.array ⟨1, 100, [4], [8]⟩] true ⟨0, 0⟩ = (.ok buf, st2) ∧
        ∀ t, 1 ≤ t → t < 2 → buf[INJECTED_NARG + t]? = some none) := by
  obtain ⟨h1, h2⟩ := call_no_arity_check
    ⟨HSAKernelBase.init, [.array 1, .array 1]⟩
    [.array ⟨1, 100, [4], [8]⟩] true ⟨0, 0⟩
  refine ⟨h1, rfl, by decide, ?_⟩
  obtain ⟨buf, st2, hc, hu⟩ := h2
    [(.addr (make_array_ctype 1 100 [4] [8]), make_array_ctype 1 100 [4] [8])]
    rfl (by decide)
  exact ⟨buf, st2, hc, fun t ht1 ht2 => hu t ht1 ht2⟩

/-! ## Complex-structure claim -/

/-- C8 (code bug): the source's `make_complex_ctypes` assigns the
two-field list to the class attribute spelled `_fields` — ctypes reads
the C layout only from `_fields_` — so the generated `Complex` and
`DoubleComplex` classes have an EMPTY native layout: `ctypes.sizeof` is
0 and nothing is stored byte-for-byte; the `real`/`imag` assignments in
`__init__` land in ordinary Python instance attributes instead of native
memory.  At the attribute level the constructed values do match the
claim: a bare real 3.0 gives `(real=3.0, imag=0.0)` and the pair
`(real=1.0, imag=2.0)` is preserved exactly. -/
theorem make_complex_ctypes_layout_empty :
    Complex.attr_name ≠ "_fields_" ∧
    Complex.cfields = [] ∧ DoubleComplex.cfields = [] ∧
    Complex.sizeofStruct = 0 ∧ DoubleComplex.sizeofStruct = 0 ∧
    Complex.field_list = [("real", 4), ("imag", 4)] ∧
    DoubleComplex.field_list = [("real", 8), ("imag", 8)] ∧
    complexInit (.float 3) 0 = { real := 3, imag := 0 } ∧
    complexInit (.cmpl { real := 1, imag := 2 }) 0 = { real := 1, imag := 2 } := by
  refine ⟨by decide, by decide, by decide, by decide, by decide, by decide,
    by decide, rfl, rfl⟩

end NumbaHSA
